import Mathlib

/-!
Shallow embedding of the OMR sheet processor core (`src/api_server.py`):
the answer-validation/scoring pipeline (`validate_answers`, `get_grade`),
the batch orchestrator (`batch_process`), the single-submission gateway
(`process_omr`) and the base64 image normalizer (`decode_base64_image`).
Python dicts are modelled as association lists in insertion order, the
filesystem as the list of staged paths, and machine floats as rationals.
-/

/-- `ALLOWED_EXTENSIONS` from api_server.py. -/
def ALLOWED_EXTENSIONS : List String := ["png", "jpg", "jpeg", "bmp", "tiff"]

/-- `UPLOAD_FOLDER` from api_server.py. -/
def UPLOAD_FOLDER : String := "api_uploads"

/-- Characters after the last dot of a name; `none` when the name has no dot.
Models Python `filename.rsplit('.', 1)[1]` guarded by `'.' in filename`. -/
def extAfterLastDot : List Char → Option (List Char)
  | [] => none
  | c :: rest =>
    match extAfterLastDot rest with
    | some e => some e
    | none => if c = '.' then some rest else none

/-- `allowed_file` from api_server.py:
`'.' in filename and filename.rsplit('.', 1)[1].lower() in ALLOWED_EXTENSIONS`. -/
def allowed_file (filename : String) : Bool :=
  match extAfterLastDot filename.toList with
  | none => false
  | some e => ALLOWED_EXTENSIONS.contains (String.mk (e.map Char.toLower))

/-- Python `round` (banker's rounding, round half to even) on a rational. -/
def pythonRound (x : ℚ) : ℤ :=
  if x - ⌊x⌋ < 1 / 2 then ⌊x⌋
  else if x - ⌊x⌋ > 1 / 2 then ⌊x⌋ + 1
  else if ⌊x⌋ % 2 = 0 then ⌊x⌋ else ⌊x⌋ + 1

/-- Python `round(x, 2)`: round to two decimal places, half to even. -/
def pyRound2 (x : ℚ) : ℚ := (pythonRound (x * 100) : ℚ) / 100

/-- `get_grade` from api_server.py. -/
def get_grade (percentage : ℚ) : String :=
  if percentage ≥ 90 then "A+"
  else if percentage ≥ 80 then "A"
  else if percentage ≥ 70 then "B"
  else if percentage ≥ 60 then "C"
  else if percentage ≥ 50 then "D"
  else "F"

/-- One entry of the `comparison` list built by `validate_answers`:
`{'question': q_num, 'detected': detected_ans, 'correct': correct_ans,
'is_correct': is_correct}`.  `detected` is an `Option` because
`detected.get(q_num)` yields `None` when the question is absent. -/
structure ComparisonRow (α β : Type) where
  question : α
  detected : Option β
  correct : β
  is_correct : Bool
deriving DecidableEq

/-- The JSON body returned by `validate_answers` (api_server.py lines 293-299). -/
structure ScoreReport (α β : Type) where
  score : ℕ
  total : ℕ
  percentage : ℚ
  grade : String
  comparison : List (ComparisonRow α β)
deriving DecidableEq

/-- The comparison loop and response of `validate_answers` (api_server.py
lines 266-299).  The two maps are association lists in dict iteration order;
the loop iterates the answer key, looks each question up in `detected`
(`None` when absent), counts exact matches, and reports the rounded
percentage while grading the unrounded one. -/
def validate_answers {α β : Type} [BEq α] [BEq β]
    (detected answer_key : List (α × β)) : ScoreReport α β :=
  let comparison := answer_key.map (fun qa =>
    { question := qa.1
      detected := detected.lookup qa.1
      correct := qa.2
      is_correct := detected.lookup qa.1 == some qa.2 : ComparisonRow α β })
  let correct := (comparison.filter (fun r => r.is_correct)).length
  let total := answer_key.length
  let score_percentage : ℚ := if total > 0 then (correct : ℚ) / (total : ℚ) * 100 else 0
  { score := correct
    total := total
    percentage := pyRound2 score_percentage
    grade := get_grade score_percentage
    comparison := comparison }

/-- Modelled from the spec: the external recognizer capability
`Recognize(staged_image_path) -> {answers: mapping, ...extra metadata} | raises`
(§6); `omr_processor.py` is not under `src/`.  A call on a staged image either
returns a payload — an answers mapping plus arbitrary extra metadata, of which
only a possible `error` field is observed by the gateway — or raises a fault
with a message. -/
inductive RecogOutcome where
  | ok (answers : List (String × String)) (errorField : Option String)
  | raise (msg : String)
deriving DecidableEq

/-- One uploaded file of a batch request: its declared filename together with
the outcome the external recognizer would produce on its staged image. -/
structure Submission where
  filename : String
  outcome : RecogOutcome
deriving DecidableEq

/-- One entry of the `results` array built by `batch_process`: the dict carries
`filename`, `status` (`success` or `error`), possibly an `error` message, and
the recognizer's answers payload. -/
structure BatchEntry where
  filename : String
  status : String
  errorMsg : Option String
  answers : List (String × String)
deriving DecidableEq

/-- The JSON body returned by `batch_process` (api_server.py lines 235-240). -/
structure BatchReport where
  total : ℕ
  processed : ℕ
  failed : ℕ
  results : List BatchEntry
deriving DecidableEq

/-- `os.path.join(UPLOAD_FOLDER, secure_filename(file.filename))`; the
werkzeug `secure_filename` sanitizer is an external library modelled as an
abstract function `sec`. -/
def stagePath (sec : String → String) (filename : String) : String :=
  UPLOAD_FOLDER ++ "/" ++ sec filename

/-- `file.save(filepath)`: stage a file, modelling the filesystem as the list
of staged paths. -/
def fsSave (p : String) (fs : List String) : List String :=
  if fs.contains p then fs else p :: fs

/-- `if os.path.exists(filepath): os.remove(filepath)`. -/
def fsRemove (p : String) (fs : List String) : List String :=
  if fs.contains p then fs.erase p else fs

/-- Modelled from the spec: message of the fault raised when the recognizer
capability was never initialized (`processor` is `None`) and
`processor.process_omr` is nevertheless invoked. -/
def attributeErrorMsg : String := "NoneType object has no attribute process_omr"

/-- One iteration of the `for file in files` loop of `batch_process`
(api_server.py lines 203-233): inadmissible names get an `error` entry without
staging; otherwise the file is staged and recognized inside `try`, a success
appends the augmented payload and removes the staged file, and any raised
fault (including the unavailable-processor `AttributeError`) appends an
`error` entry — with no cleanup on that path. -/
def batchStep (loaded : Bool) (sec : String → String) (file : Submission)
    (fs : List String) : BatchEntry × List String :=
  if file.filename == "" || !allowed_file file.filename then
    ({ filename := file.filename, status := "error"
       errorMsg := some "Invalid file", answers := [] }, fs)
  else
    let filepath := stagePath sec file.filename
    let fs1 := fsSave filepath fs
    if loaded then
      match file.outcome with
      | .ok answers errField =>
        ({ filename := sec file.filename, status := "success"
           errorMsg := errField, answers := answers }, fsRemove filepath fs1)
      | .raise msg =>
        ({ filename := file.filename, status := "error"
           errorMsg := some msg, answers := [] }, fs1)
    else
      ({ filename := file.filename, status := "error"
         errorMsg := some attributeErrorMsg, answers := [] }, fs1)

/-- The entry appended for a submission, which does not depend on the
filesystem state (the filesystem only influences the staging side effects). -/
def batchEntryOf (loaded : Bool) (sec : String → String) (file : Submission) :
    BatchEntry :=
  if file.filename == "" || !allowed_file file.filename then
    { filename := file.filename, status := "error"
      errorMsg := some "Invalid file", answers := [] }
  else if loaded then
    match file.outcome with
    | .ok answers errField =>
      { filename := sec file.filename, status := "success"
        errorMsg := errField, answers := answers }
    | .raise msg =>
      { filename := file.filename, status := "error"
        errorMsg := some msg, answers := [] }
  else
    { filename := file.filename, status := "error"
      errorMsg := some attributeErrorMsg, answers := [] }

/-- The whole `for file in files` loop, threading the filesystem and
accumulating the `results` list in submission order. -/
def batchLoop (loaded : Bool) (sec : String → String) :
    List Submission → List String → List BatchEntry × List String
  | [], fs => ([], fs)
  | f :: rest, fs =>
    let step := batchStep loaded sec f fs
    let rec_ := batchLoop loaded sec rest step.2
    (step.1 :: rec_.1, rec_.2)

/-- `batch_process` (api_server.py lines 181-240): rejects an empty upload
list, otherwise runs the loop and assembles the report whose counters are
recomputed from the results sequence.  Returns the response paired with the
final filesystem state. -/
def batch_process (loaded : Bool) (sec : String → String)
    (files : List Submission) (fs : List String) :
    Except String BatchReport × List String :=
  if files.isEmpty then (.error "No files selected", fs)
  else
    let run := batchLoop loaded sec files fs
    (.ok { total := files.length
           processed := (run.1.filter (fun r => r.status == "success")).length
           failed := (run.1.filter (fun r => r.status == "error")).length
           results := run.1 }, run.2)

/-- The request body accepted by the single-submission endpoint: a multipart
file upload, a base64 JSON image (`decodes` records whether
`decode_base64_image` succeeds on it), or no image at all. -/
inductive ReqBody where
  | fileUpload (filename : String) (outcome : RecogOutcome)
  | b64Image (decodes : Bool) (outcome : RecogOutcome)
  | noImage
deriving DecidableEq

/-- The responses of the single-submission endpoint `process_omr`:
the fixed 503 `Model not loaded` condition, the 400 admission errors, the 500
carrying a domain `error` reported by the recognizer, the 500 with
`processing_status: failed` for a raised fault, and the 200 success payload. -/
inductive SingleResp where
  | modelNotLoaded
  | badRequest (msg : String)
  | errorResp (msg : String)
  | failedResp (msg : String)
  | success (answers : List (String × String))
deriving DecidableEq

/-- The `try`/`except` block of `process_omr` (api_server.py lines 150-178):
recognize the staged image, remove the staged file, then report; on a raised
fault remove the staged file and report a 500.  Cleanup precedes the
`"error" in result` check, so every exit path of the single endpoint removes
the staged file. -/
def recognizeAndClean (outcome : RecogOutcome) (filepath : String)
    (fs : List String) : SingleResp × List String :=
  match outcome with
  | .ok answers errField =>
    let fs1 := fsRemove filepath fs
    match errField with
    | some e => (.errorResp e, fs1)
    | none => (.success answers, fs1)
  | .raise msg => (.failedResp msg, fsRemove filepath fs)

/-- `process_omr` (api_server.py lines 92-178): the availability check, the
two admission paths (file upload with allow-set check, base64 decode with a
fixed staging name), and the recognize-and-clean block. -/
def process_omr (loaded : Bool) (sec : String → String) (req : ReqBody)
    (fs : List String) : SingleResp × List String :=
  if !loaded then (.modelNotLoaded, fs)
  else
    match req with
    | .fileUpload fname outcome =>
      if fname == "" then (.badRequest "No file selected", fs)
      else if !allowed_file fname then (.badRequest "Invalid file type", fs)
      else recognizeAndClean outcome (stagePath sec fname)
        (fsSave (stagePath sec fname) fs)
    | .b64Image decodes outcome =>
      if !decodes then (.badRequest "Invalid base64 image", fs)
      else recognizeAndClean outcome (UPLOAD_FOLDER ++ "/" ++ "temp_image.jpg")
        (fsSave (UPLOAD_FOLDER ++ "/" ++ "temp_image.jpg") fs)
    | .noImage => (.badRequest "No image provided", fs)

/-- A corrupt batch item: inadmissible (empty or disallowed filename) or one
whose recognition raises a fault. -/
def corruptSub (f : Submission) : Bool :=
  f.filename == "" || !allowed_file f.filename ||
    (match f.outcome with
      | .raise _ => true
      | _ => false)

/-- A valid batch item: admissible filename and a recognition that returns a
payload carrying no error field. -/
def validSub (f : Submission) : Bool :=
  !(f.filename == "") && allowed_file f.filename &&
    (match f.outcome with
      | .ok _ none => true
      | _ => false)

/-- A batch item whose recognition does not raise. -/
def noRaiseSub (f : Submission) : Bool :=
  match f.outcome with
  | .raise _ => false
  | _ => true

/-- The data-URL marker `'base64,'` that `decode_base64_image` splits on. -/
def SEP : List Char := ['b', 'a', 's', 'e', '6', '4', ',']

/-- Python `sep in s` for strings, as character lists. -/
def containsSeq (sep : List Char) : List Char → Bool
  | [] => sep.isEmpty
  | c :: rest => sep.isPrefixOf (c :: rest) || containsSeq sep rest

/-- The characters after the first occurrence of `sep`. -/
def dropThroughFirst (sep : List Char) : List Char → List Char
  | [] => []
  | c :: rest =>
    if sep.isPrefixOf (c :: rest) then (c :: rest).drop sep.length
    else dropThroughFirst sep rest

/-- The characters before the first occurrence of `sep` (the whole list when
`sep` does not occur). -/
def takeUntilFirst (sep : List Char) : List Char → List Char
  | [] => []
  | c :: rest =>
    if sep.isPrefixOf (c :: rest) then []
    else c :: takeUntilFirst sep rest

/-- `decode_base64_image` (api_server.py lines 62-73) on a character list.
`if 'base64,' in base64_string: base64_string = base64_string.split('base64,')[1]`
keeps the segment between the first and second occurrence of the marker (or to
the end), then decodes.  The library calls `base64.b64decode` and
`Image.open`/`cv2.cvtColor` are external and abstracted as functions returning
`none` exactly when they would raise; any such fault makes the whole function
return `None`. -/
def decode_base64_image {Img : Type} (b64decode : List Char → Option (List ℕ))
    (imageOpen : List ℕ → Option Img) (base64_string : List Char) : Option Img :=
  let s := if containsSeq SEP base64_string then
      takeUntilFirst SEP (dropThroughFirst SEP base64_string)
    else base64_string
  match b64decode s with
  | none => none
  | some bytes => imageOpen bytes

theorem split_marker_eval : takeUntilFirst SEP (dropThroughFirst SEP
    "data:image/png;base64,QUJD".toList) = "QUJD".toList := by decide

theorem containsSeq_eval_true :
    containsSeq SEP "data:image/png;base64,QUJD".toList = true := by decide

theorem containsSeq_eval_false : containsSeq SEP "QUJD".toList = false := by decide

theorem pyRound2_of_floor_lt (x : ℚ) (n : ℤ) (hf : ⌊x * 100⌋ = n)
    (h : x * 100 - n < 1 / 2) : pyRound2 x = (n : ℚ) / 100 := by
  unfold pyRound2 pythonRound
  rw [hf, if_pos h]

theorem pyRound2_of_floor_gt (x : ℚ) (n : ℤ) (hf : ⌊x * 100⌋ = n)
    (h : x * 100 - n > 1 / 2) : pyRound2 x = ((n + 1 : ℤ) : ℚ) / 100 := by
  unfold pyRound2 pythonRound
  rw [hf, if_neg (by linarith), if_pos h]

theorem end_to_end_comparison_eval :
    (validate_answers [("1", "A"), ("2", "C")]
      [("1", "A"), ("2", "B"), ("3", "C")]).comparison
    = [⟨"1", some "A", "A", true⟩, ⟨"2", some "C", "B", false⟩,
        ⟨"3", none, "C", false⟩] := by decide

theorem allowed_file_eval_png : allowed_file "a.PNG" = true := by decide

theorem allowed_file_eval_nodot : allowed_file "apng" = false := by decide

theorem allowed_file_eval_txt : allowed_file "a.txt" = false := by decide

theorem pyRound2_zero : pyRound2 0 = 0 := by
  have h := pyRound2_of_floor_lt 0 0 (by norm_num) (by norm_num)
  simpa using h

theorem pyRound2_hundred : pyRound2 100 = 100 := by
  have h := pyRound2_of_floor_lt 100 10000 (by rw [Int.floor_eq_iff]; norm_num)
    (by norm_num)
  rw [h]
  norm_num

theorem validate_comparison {α β : Type} [BEq α] [BEq β]
    (detected answer_key : List (α × β)) :
    (validate_answers detected answer_key).comparison = answer_key.map (fun qa =>
      { question := qa.1
        detected := detected.lookup qa.1
        correct := qa.2
        is_correct := detected.lookup qa.1 == some qa.2 : ComparisonRow α β }) := rfl

theorem validate_total {α β : Type} [BEq α] [BEq β]
    (detected answer_key : List (α × β)) :
    (validate_answers detected answer_key).total = answer_key.length := rfl

theorem validate_score_def {α β : Type} [BEq α] [BEq β]
    (detected answer_key : List (α × β)) :
    (validate_answers detected answer_key).score =
      ((validate_answers detected answer_key).comparison.filter
        (fun r => r.is_correct)).length := rfl

theorem validate_percentage_def {α β : Type} [BEq α] [BEq β]
    (detected answer_key : List (α × β)) :
    (validate_answers detected answer_key).percentage =
      pyRound2 (if 0 < answer_key.length then
        ((validate_answers detected answer_key).score : ℚ) /
          (answer_key.length : ℚ) * 100 else 0) := rfl

theorem validate_grade_def {α β : Type} [BEq α] [BEq β]
    (detected answer_key : List (α × β)) :
    (validate_answers detected answer_key).grade =
      get_grade (if 0 < answer_key.length then
        ((validate_answers detected answer_key).score : ℚ) /
          (answer_key.length : ℚ) * 100 else 0) := rfl

theorem lookup_eq_none_of_keys_ne {α β : Type} [BEq α] [LawfulBEq α]
    (e : List (α × β)) (q : α) (h : ∀ p ∈ e, p.1 ≠ q) : e.lookup q = none := by
  induction e with
  | nil => rfl
  | cons kv rest ih =>
    obtain ⟨k, v⟩ := kv
    have hk : (q == k) = false := beq_eq_false_iff_ne.mpr
      (fun he => (h (k, v) (List.mem_cons_self _ _)) he.symm)
    simp only [List.lookup, hk]
    exact ih (fun p hp => h p (List.mem_cons_of_mem _ hp))

theorem lookup_append_eq_left {α β : Type} [BEq α] [LawfulBEq α]
    (l e : List (α × β)) (q : α) (h : ∀ p ∈ e, p.1 ≠ q) :
    (l ++ e).lookup q = l.lookup q := by
  induction l with
  | nil => simpa using lookup_eq_none_of_keys_ne e q h
  | cons kv rest ih =>
    obtain ⟨k, v⟩ := kv
    cases hqk : q == k
    · simpa only [List.cons_append, List.lookup, hqk] using ih
    · simp only [List.cons_append, List.lookup, hqk]

theorem lookup_self_of_nodup {α β : Type} [BEq α] [LawfulBEq α]
    (key : List (α × β)) (hnd : (key.map (fun p => p.1)).Nodup)
    {q : α} {a : β} (hmem : (q, a) ∈ key) : key.lookup q = some a := by
  induction key with
  | nil => cases hmem
  | cons kv rest ih =>
    obtain ⟨k, v⟩ := kv
    simp only [List.map_cons, List.nodup_cons] at hnd
    rcases List.mem_cons.mp hmem with heq | htail
    · obtain ⟨rfl, rfl⟩ := Prod.mk.inj heq
      simp [List.lookup]
    · have hqk : (q == k) = false := beq_eq_false_iff_ne.mpr (fun hqk => hnd.1
        (by rw [← hqk]; exact List.mem_map.mpr ⟨(q, a), htail, rfl⟩))
      simp only [List.lookup, hqk]
      exact ih hnd.2 htail

theorem ScoreReport_ext {α β : Type} (r1 r2 : ScoreReport α β)
    (h1 : r1.score = r2.score) (h2 : r1.total = r2.total)
    (h3 : r1.percentage = r2.percentage) (h4 : r1.grade = r2.grade)
    (h5 : r1.comparison = r2.comparison) : r1 = r2 := by
  cases r1
  cases r2
  simp_all

theorem lookup_append_or {α β : Type} [BEq α] (l e : List (α × β)) (q : α) :
    (l ++ e).lookup q = (match l.lookup q with
      | some v => some v
      | none => e.lookup q) := by
  induction l with
  | nil => rfl
  | cons kv rest ih =>
    obtain ⟨k, v⟩ := kv
    cases hqk : q == k
    · simpa only [List.cons_append, List.lookup, hqk] using ih
    · simp only [List.cons_append, List.lookup, hqk]

theorem lookup_range_map {β : Type} (f : ℕ → β) :
    ∀ n i : ℕ, ((List.range n).map (fun j => (j, f j))).lookup i =
      if i < n then some (f i) else none := by
  intro n
  induction n with
  | zero => intro i; simp
  | succ n ih =>
    intro i
    rw [List.range_succ, List.map_append, lookup_append_or, ih]
    by_cases h : i < n
    · rw [if_pos h, if_pos (by omega)]
    · rw [if_neg h]
      by_cases h2 : i = n
      · subst h2
        rw [if_pos (Nat.lt_succ_self i)]
        simp [List.lookup]
      · rw [if_neg (by omega)]
        have hb : (i == n) = false := beq_eq_false_iff_ne.mpr h2
        simp [List.lookup, hb]

theorem countP_congr_mem {α : Type} {l : List α} {p q : α → Bool}
    (h : ∀ a ∈ l, p a = q a) : l.countP p = l.countP q := by
  induction l with
  | nil => rfl
  | cons a rest ih =>
    rw [List.countP_cons, List.countP_cons, h a (List.mem_cons_self _ _),
      ih (fun b hb => h b (List.mem_cons_of_mem _ hb))]

theorem countP_range_lt (c : ℕ) :
    ∀ n : ℕ, (List.range n).countP (fun i => decide (i < c)) = min c n := by
  intro n
  induction n with
  | zero => simp
  | succ n ih =>
    rw [List.range_succ, List.countP_append, ih]
    by_cases h : n < c
    · have h1 : List.countP (fun i => decide (i < c)) [n] = 1 := by simp [h]
      rw [h1]
      omega
    · have h1 : List.countP (fun i => decide (i < c)) [n] = 0 := by simp [h]
      rw [h1]
      omega

/-- Claim C3: the comparison sequence covers exactly the questions of the
answer key, in the key's iteration order; its total is the number of key
entries; a question in the key but missing from the detected map is scored as
incorrect with a `None` detected value rather than an error; and entries of
the detected map whose question is not in the key contribute nothing. -/
theorem claim_C3 {α β : Type} [BEq α] [LawfulBEq α] [BEq β]
    (detected answer_key : List (α × β)) :
    ((validate_answers detected answer_key).comparison.map (fun r => r.question)
      = answer_key.map (fun p => p.1)) ∧
    ((validate_answers detected answer_key).total = answer_key.length) ∧
    (∀ q a, (q, a) ∈ answer_key → detected.lookup q = none →
      ({ question := q, detected := none, correct := a, is_correct := false } :
        ComparisonRow α β) ∈ (validate_answers detected answer_key).comparison) ∧
    (∀ extra : List (α × β), (∀ p ∈ extra, ∀ p2 ∈ answer_key, p.1 ≠ p2.1) →
      validate_answers (detected ++ extra) answer_key =
        validate_answers detected answer_key) := by
  refine ⟨?_, rfl, ?_, ?_⟩
  · rw [validate_comparison, List.map_map]
    rfl
  · intro q a hmem hnone
    rw [validate_comparison]
    refine List.mem_map.mpr ⟨(q, a), hmem, ?_⟩
    show ComparisonRow.mk q (detected.lookup q) a (detected.lookup q == some a) =
      ComparisonRow.mk q none a false
    rw [hnone]
    rfl
  · intro extra hext
    have hcomp : (validate_answers (detected ++ extra) answer_key).comparison =
        (validate_answers detected answer_key).comparison := by
      rw [validate_comparison, validate_comparison]
      refine List.map_congr_left (fun qa hqa => ?_)
      rw [lookup_append_eq_left detected extra qa.1
        (fun p hp => hext p hp qa hqa)]
    have hscore : (validate_answers (detected ++ extra) answer_key).score =
        (validate_answers detected answer_key).score := by
      rw [validate_score_def, validate_score_def, hcomp]
    refine ScoreReport_ext _ _ hscore rfl ?_ ?_ hcomp
    · rw [validate_percentage_def, validate_percentage_def, hscore]
    · rw [validate_grade_def, validate_grade_def, hscore]

/-- Witness for C3: a key question missing from detection appears as an
incorrect row with a `None` detected value, and extra detected questions
leave the report unchanged. -/
theorem claim_C3_witness :
    (({ question := "2", detected := none, correct := "B", is_correct := false } :
        ComparisonRow String String) ∈
      (validate_answers [("1", "A")] [("1", "A"), ("2", "B")]).comparison) ∧
    (validate_answers ([("1", "A")] ++ [("9", "Z")]) [("1", "A"), ("2", "B")] =
      validate_answers [("1", "A")] [("1", "A"), ("2", "B")]) :=
  ⟨(claim_C3 [("1", "A")] [("1", "A"), ("2", "B")]).2.2.1 "2" "B" (by decide)
      (by decide),
    (claim_C3 [("1", "A")] [("1", "A"), ("2", "B")]).2.2.2 [("9", "Z")]
      (by decide)⟩

/-- Claim C4: the letter grade is determined by inclusive lower-bound
thresholds evaluated top-down with first match winning (>=90 A+, >=80 A,
>=70 B, >=60 C, >=50 D, else F), and the boundary percentages
90, 89.99, 80, 79.99, 70, 69.99, 60, 59.99, 50, 49.99, 0 map to
A+, A, A, B, B, C, C, D, D, F, F respectively. -/
theorem claim_C4 (p : ℚ) :
    (90 ≤ p → get_grade p = "A+") ∧
    (80 ≤ p → p < 90 → get_grade p = "A") ∧
    (70 ≤ p → p < 80 → get_grade p = "B") ∧
    (60 ≤ p → p < 70 → get_grade p = "C") ∧
    (50 ≤ p → p < 60 → get_grade p = "D") ∧
    (p < 50 → get_grade p = "F") ∧
    (get_grade 90 = "A+" ∧ get_grade (8999 / 100) = "A" ∧ get_grade 80 = "A" ∧
      get_grade (7999 / 100) = "B" ∧ get_grade 70 = "B" ∧
      get_grade (6999 / 100) = "C" ∧ get_grade 60 = "C" ∧
      get_grade (5999 / 100) = "D" ∧ get_grade 50 = "D" ∧
      get_grade (4999 / 100) = "F" ∧ get_grade 0 = "F") := by
  refine ⟨?_, ?_, ?_, ?_, ?_, ?_, ?_⟩
  · intro h1
    unfold get_grade
    rw [if_pos h1]
  · intro h1 h2
    unfold get_grade
    rw [if_neg (not_le.mpr h2), if_pos h1]
  · intro h1 h2
    unfold get_grade
    rw [if_neg (not_le.mpr (by linarith)), if_neg (not_le.mpr h2), if_pos h1]
  · intro h1 h2
    unfold get_grade
    rw [if_neg (not_le.mpr (by linarith)), if_neg (not_le.mpr (by linarith)),
      if_neg (not_le.mpr h2), if_pos h1]
  · intro h1 h2
    unfold get_grade
    rw [if_neg (not_le.mpr (by linarith)), if_neg (not_le.mpr (by linarith)),
      if_neg (not_le.mpr (by linarith)), if_neg (not_le.mpr h2), if_pos h1]
  · intro h1
    unfold get_grade
    rw [if_neg (not_le.mpr (by linarith)), if_neg (not_le.mpr (by linarith)),
      if_neg (not_le.mpr (by linarith)), if_neg (not_le.mpr (by linarith)),
      if_neg (not_le.mpr h1)]
  · refine ⟨?_, ?_, ?_, ?_, ?_, ?_, ?_, ?_, ?_, ?_, ?_⟩ <;> norm_num [get_grade]

/-- Witness for C4 at concrete boundary inputs. -/
theorem claim_C4_witness : get_grade 95 = "A+" :=
  (claim_C4 95).1 (by norm_num)

/-- Claim C5: the reported percentage is round(correct / total * 100, 2)
whenever total > 0, and is 0 whenever total == 0 — for every detected map,
both against an arbitrary key whose total turns out to be 0 and against the
empty key — with no division-by-zero fault; in particular score of two empty
maps has total 0 and percentage 0. -/
theorem claim_C5 {α β : Type} [BEq α] [BEq β] (detected answer_key : List (α × β)) :
    (0 < answer_key.length →
      (validate_answers detected answer_key).percentage =
        pyRound2 (((validate_answers detected answer_key).score : ℚ) /
          ((validate_answers detected answer_key).total : ℚ) * 100)) ∧
    ((validate_answers detected answer_key).total = 0 →
      (validate_answers detected answer_key).percentage = 0) ∧
    (validate_answers detected ([] : List (α × β))).total = 0 ∧
    (validate_answers detected ([] : List (α × β))).percentage = 0 ∧
    (validate_answers ([] : List (α × β)) ([] : List (α × β))).total = 0 ∧
    (validate_answers ([] : List (α × β)) ([] : List (α × β))).percentage = 0 := by
  have hzero : ∀ d : List (α × β), (validate_answers d ([] : List (α × β))).percentage = 0 := by
    intro d
    rw [validate_percentage_def]
    simp only [List.length_nil, lt_irrefl, if_false]
    exact pyRound2_zero
  refine ⟨?_, ?_, rfl, hzero detected, rfl, hzero []⟩
  · intro h
    rw [validate_percentage_def, if_pos h, validate_total]
  · intro h0
    rw [validate_total] at h0
    rw [validate_percentage_def, if_neg (by omega), pyRound2_zero]

/-- Witness for C5 at concrete inputs: a non-empty key for the rounded
formula, and a non-empty detected map against an empty key for the
zero-total case. -/
theorem claim_C5_witness :
    ((validate_answers [("1", "A")] [("1", "A")]).percentage =
      pyRound2 (((validate_answers [("1", "A")] [("1", "A")]).score : ℚ) /
        ((validate_answers [("1", "A")] [("1", "A")]).total : ℚ) * 100)) ∧
    (validate_answers [("1", "A")] ([] : List (String × String))).percentage = 0 :=
  ⟨(claim_C5 [("1", "A")] [("1", "A")]).1 (by decide),
    (claim_C5 [("1", "A")] ([] : List (String × String))).2.1 rfl⟩

/-- Claim C6: scoring any non-empty key against itself yields
percentage 100.00 and grade A+. -/
theorem claim_C6 {α β : Type} [BEq α] [LawfulBEq α] [BEq β] [LawfulBEq β]
    (key : List (α × β)) (hne : key ≠ [])
    (hnd : (key.map (fun p => p.1)).Nodup) :
    (validate_answers key key).percentage = 100 ∧
      (validate_answers key key).grade = "A+" := by
  have hall : ∀ r ∈ (validate_answers key key).comparison, r.is_correct = true := by
    rw [validate_comparison]
    intro r hr
    rcases List.mem_map.mp hr with ⟨qa, hqa, rfl⟩
    have : key.lookup qa.1 = some qa.2 := lookup_self_of_nodup key hnd hqa
    simp [this]
  have hscore : (validate_answers key key).score = key.length := by
    rw [validate_score_def, List.filter_eq_self.mpr (by simpa using hall),
      validate_comparison, List.length_map]
  have hlen : 0 < key.length := List.length_pos.mpr hne
  have hcast : ((key.length : ℚ)) ≠ 0 := by
    exact_mod_cast Nat.pos_iff_ne_zero.mp hlen
  have hsp : (if 0 < key.length then
      ((validate_answers key key).score : ℚ) / (key.length : ℚ) * 100 else 0) = 100 := by
    rw [if_pos hlen, hscore, div_self hcast, one_mul]
  constructor
  · rw [validate_percentage_def, hsp, pyRound2_hundred]
  · rw [validate_grade_def, hsp]
    norm_num [get_grade]

/-- Witness for C6 at a concrete non-empty key. -/
theorem claim_C6_witness :
    (validate_answers [("1", "A")] [("1", "A")]).percentage = 100 ∧
      (validate_answers [("1", "A")] [("1", "A")]).grade = "A+" :=
  claim_C6 [("1", "A")] (by decide) (by decide)

theorem pyRound2_at_89996 : pyRound2 ((89996 : ℚ) / 100000 * 100) = 90 := by
  have h := pyRound2_of_floor_gt ((89996 : ℚ) / 100000 * 100) 8999
    (by rw [Int.floor_eq_iff]; norm_num) (by norm_num)
  rw [h]
  norm_num

theorem bigKey_score :
    (validate_answers
      ((List.range 100000).map (fun i => (i, if i < 89996 then "A" else "B")))
      ((List.range 100000).map (fun i => (i, "A")))).score = 89996 := by
  rw [validate_score_def, ← List.countP_eq_length_filter, validate_comparison,
    List.countP_map, List.countP_map]
  have hcongr : ∀ i ∈ List.range 100000,
      (((List.range 100000).map
          (fun j => (j, if j < 89996 then "A" else "B"))).lookup i ==
        some "A") = decide (i < 89996) := by
    intro i hi
    have hlt : i < 100000 := List.mem_range.mp hi
    rw [lookup_range_map (fun j => if j < 89996 then "A" else "B") 100000 i,
      if_pos hlt]
    by_cases hc : i < 89996
    · simp [hc]
    · simp [hc]
  calc (List.range 100000).countP (fun i =>
        ((List.range 100000).map
          (fun j => (j, if j < 89996 then "A" else "B"))).lookup i == some "A")
      = (List.range 100000).countP (fun i => decide (i < 89996)) :=
        countP_congr_mem hcongr
    _ = 89996 := by rw [countP_range_lt]; omega

theorem batchStep_fst (loaded : Bool) (sec : String → String) (f : Submission)
    (fs : List String) : (batchStep loaded sec f fs).1 = batchEntryOf loaded sec f := by
  rcases f with ⟨name, outcome⟩
  unfold batchStep batchEntryOf
  by_cases h : (name == "" || !allowed_file name) = true
  · simp [h]
  · cases loaded
    · simp [h]
    · cases outcome <;> simp [h]

theorem batchLoop_fst (loaded : Bool) (sec : String → String) :
    ∀ (files : List Submission) (fs : List String),
      (batchLoop loaded sec files fs).1 = files.map (batchEntryOf loaded sec) := by
  intro files
  induction files with
  | nil => intro fs; rfl
  | cons f rest ih =>
    intro fs
    simp only [batchLoop, List.map_cons]
    rw [batchStep_fst, ih]

theorem batchEntryOf_status (loaded : Bool) (sec : String → String)
    (f : Submission) : (batchEntryOf loaded sec f).status = "success" ∨
      (batchEntryOf loaded sec f).status = "error" := by
  rcases f with ⟨name, outcome⟩
  unfold batchEntryOf
  by_cases h : (name == "" || !allowed_file name) = true
  · right
    simp [h]
  · cases loaded
    · right
      simp [h]
    · cases outcome with
      | ok a e =>
        left
        simp [h]
      | raise m =>
        right
        simp [h]

theorem filter_status_lengths (L : List BatchEntry)
    (h : ∀ r ∈ L, r.status = "success" ∨ r.status = "error") :
    (L.filter (fun r => r.status == "success")).length +
      (L.filter (fun r => r.status == "error")).length = L.length := by
  induction L with
  | nil => rfl
  | cons r rest ih =>
    have hrest := ih (fun x hx => h x (List.mem_cons_of_mem _ hx))
    rcases h r (List.mem_cons_self _ _) with hs | hs
    · simp [List.filter_cons, hs]
      omega
    · simp [List.filter_cons, hs]
      omega

theorem batch_process_ok (loaded : Bool) (sec : String → String)
    (files : List Submission) (fs : List String) (hne : files.isEmpty = false) :
    (batch_process loaded sec files fs).1 = Except.ok
      { total := files.length
        processed := ((files.map (batchEntryOf loaded sec)).filter
          (fun r => r.status == "success")).length
        failed := ((files.map (batchEntryOf loaded sec)).filter
          (fun r => r.status == "error")).length
        results := files.map (batchEntryOf loaded sec) } := by
  unfold batch_process
  rw [if_neg (by simp [hne])]
  show (Except.ok
      { total := files.length
        processed := ((batchLoop loaded sec files fs).1.filter
          (fun r => r.status == "success")).length
        failed := ((batchLoop loaded sec files fs).1.filter
          (fun r => r.status == "error")).length
        results := (batchLoop loaded sec files fs).1 : BatchReport } :
    Except String BatchReport) = _
  rw [batchLoop_fst]

/-- Claim C2: for every sequence of at least one submission, batch processing
returns a report whose results sequence has one entry per submission in
submission order, whose counters are recomputed from the results sequence and
satisfy processed + failed == total == number of submissions, and every entry
is tagged either success or error. -/
theorem claim_C2 (loaded : Bool) (sec : String → String) (files : List Submission)
    (fs : List String) (h : 1 ≤ files.length) :
    ∃ report : BatchReport,
      (batch_process loaded sec files fs).1 = Except.ok report ∧
      report.total = files.length ∧
      report.results.length = files.length ∧
      report.results = files.map (batchEntryOf loaded sec) ∧
      report.processed + report.failed = report.total ∧
      (∀ r ∈ report.results, r.status = "success" ∨ r.status = "error") := by
  have hne : files.isEmpty = false := by
    cases files
    · simp at h
    · rfl
  have hstat : ∀ r ∈ files.map (batchEntryOf loaded sec),
      r.status = "success" ∨ r.status = "error" := by
    intro r hr
    rcases List.mem_map.mp hr with ⟨f, hf, rfl⟩
    exact batchEntryOf_status loaded sec f
  refine ⟨_, batch_process_ok loaded sec files fs hne, rfl, ?_, rfl, ?_, hstat⟩
  · exact List.length_map _ _
  · rw [filter_status_lengths _ hstat, List.length_map]

/-- Witness for C2 at a concrete one-element batch. -/
theorem claim_C2_witness :
    ∃ report : BatchReport,
      (batch_process true id [⟨"a.png", RecogOutcome.ok [("q1", "A")] none⟩] []).1
        = Except.ok report ∧
      report.total = [(⟨"a.png", RecogOutcome.ok [("q1", "A")] none⟩ : Submission)].length ∧
      report.results.length
        = [(⟨"a.png", RecogOutcome.ok [("q1", "A")] none⟩ : Submission)].length ∧
      report.results = [(⟨"a.png", RecogOutcome.ok [("q1", "A")] none⟩ : Submission)].map
        (batchEntryOf true id) ∧
      report.processed + report.failed = report.total ∧
      (∀ r ∈ report.results, r.status = "success" ∨ r.status = "error") :=
  claim_C2 true id [⟨"a.png", RecogOutcome.ok [("q1", "A")] none⟩] [] (by decide)

theorem batchEntryOf_status_error (sec : String → String) (f : Submission)
    (h : corruptSub f = true) : (batchEntryOf true sec f).status = "error" := by
  rcases f with ⟨name, outcome⟩
  unfold batchEntryOf
  cases outcome with
  | ok a e =>
    have hadm : (name == "" || !allowed_file name) = true := by
      unfold corruptSub at h
      simpa using h
    simp [hadm]
  | raise m =>
    by_cases hadm : (name == "" || !allowed_file name) = true
    · simp [hadm]
    · simp [hadm]

theorem batchEntryOf_status_success (sec : String → String) (f : Submission)
    (h : validSub f = true) : (batchEntryOf true sec f).status = "success" := by
  rcases f with ⟨name, outcome⟩
  unfold validSub at h
  simp only [Bool.and_eq_true, Bool.not_eq_true'] at h
  obtain ⟨⟨h1, h2⟩, h3⟩ := h
  cases outcome with
  | raise m => simp at h3
  | ok a e =>
    cases e with
    | some s => simp at h3
    | none =>
      unfold batchEntryOf
      simp [h1, h2]

/-- Claim C1: in a batch where item k is corrupt (inadmissible or whose
recognition raises) and all other items are valid, the report has one entry
per item and exactly the entry at position k is tagged error while every
other entry is tagged success; no per-item fault aborts the processing of the
remaining items. -/
theorem claim_C1 (sec : String → String) (files : List Submission)
    (fs : List String) (k : ℕ) (hk : k < files.length)
    (hcor : corruptSub (files.get ⟨k, hk⟩) = true)
    (hval : ∀ j (hj : j < files.length), j ≠ k →
      validSub (files.get ⟨j, hj⟩) = true) :
    ∃ report : BatchReport,
      (batch_process true sec files fs).1 = Except.ok report ∧
      report.results.length = files.length ∧
      ∀ j (hj : j < report.results.length),
        (report.results.get ⟨j, hj⟩).status = if j = k then "error" else "success" := by
  have hne : files.isEmpty = false := by
    cases files
    · simp at hk
    · rfl
  refine ⟨_, batch_process_ok true sec files fs hne, List.length_map _ _, ?_⟩
  intro j hj
  have hjf : j < files.length := by
    simpa using hj
  have hget : (files.map (batchEntryOf true sec)).get ⟨j, hj⟩ =
      batchEntryOf true sec (files.get ⟨j, hjf⟩) := by
    simp
  rw [hget]
  by_cases hcase : j = k
  · subst hcase
    rw [if_pos rfl]
    exact batchEntryOf_status_error sec _ hcor
  · rw [if_neg hcase]
    exact batchEntryOf_status_success sec _ (hval j hjf hcase)

/-- Witness for C1: a two-item batch whose first item has a disallowed
extension and whose second item is valid. -/
theorem claim_C1_witness :
    ∃ report : BatchReport,
      (batch_process true id [⟨"bad.txt", RecogOutcome.ok [] none⟩,
        ⟨"good.png", RecogOutcome.ok [("q1", "A")] none⟩] []).1 = Except.ok report ∧
      report.results.length = ([⟨"bad.txt", RecogOutcome.ok [] none⟩,
        ⟨"good.png", RecogOutcome.ok [("q1", "A")] none⟩] : List Submission).length ∧
      ∀ j (hj : j < report.results.length),
        (report.results.get ⟨j, hj⟩).status = if j = 0 then "error" else "success" :=
  claim_C1 id [⟨"bad.txt", RecogOutcome.ok [] none⟩,
    ⟨"good.png", RecogOutcome.ok [("q1", "A")] none⟩] [] 0 (by decide)
    (by decide) (by decide)

theorem fsRemove_fsSave_subset (p : String) (fs : List String) :
    fsRemove p (fsSave p fs) ⊆ fs := by
  unfold fsSave fsRemove
  by_cases h : fs.contains p = true
  · simp only [h, if_true]
    exact List.erase_subset _ _
  · have hc : (p :: fs).contains p = true := by simp
    rw [if_neg h, if_pos hc, List.erase_cons_head]
    exact fun x hx => hx

theorem recognizeAndClean_snd_subset (outcome : RecogOutcome) (p : String)
    (fs : List String) : (recognizeAndClean outcome p (fsSave p fs)).2 ⊆ fs := by
  cases outcome with
  | ok a e =>
    cases e with
    | some m => exact fsRemove_fsSave_subset p fs
    | none => exact fsRemove_fsSave_subset p fs
  | raise m => exact fsRemove_fsSave_subset p fs

theorem process_omr_snd_subset (loaded : Bool) (sec : String → String)
    (req : ReqBody) (fs : List String) : (process_omr loaded sec req fs).2 ⊆ fs := by
  cases loaded
  · exact fun x hx => hx
  · cases req with
    | noImage => exact fun x hx => hx
    | fileUpload fname outcome =>
      show (if (fname == "") = true then _ else _ : SingleResp × List String).2 ⊆ fs
      by_cases h1 : (fname == "") = true
      · rw [if_pos h1]
        exact fun x hx => hx
      · rw [if_neg h1]
        by_cases h2 : (!allowed_file fname) = true
        · rw [if_pos h2]
          exact fun x hx => hx
        · rw [if_neg h2]
          exact recognizeAndClean_snd_subset outcome (stagePath sec fname) fs
    | b64Image decodes outcome =>
      cases decodes
      · exact fun x hx => hx
      · exact recognizeAndClean_snd_subset outcome
          (UPLOAD_FOLDER ++ "/" ++ "temp_image.jpg") fs

theorem batchStep_snd_subset (sec : String → String) (f : Submission)
    (fs : List String) (h : noRaiseSub f = true) :
    (batchStep true sec f fs).2 ⊆ fs := by
  rcases f with ⟨name, outcome⟩
  unfold batchStep
  by_cases hadm : (name == "" || !allowed_file name) = true
  · rw [if_pos hadm]
    exact fun x hx => hx
  · rw [if_neg hadm]
    cases outcome with
    | ok a e => exact fsRemove_fsSave_subset _ fs
    | raise m => simp [noRaiseSub] at h

theorem batchLoop_snd_subset (sec : String → String) :
    ∀ (files : List Submission) (fs : List String),
      (∀ f ∈ files, noRaiseSub f = true) →
      (batchLoop true sec files fs).2 ⊆ fs := by
  intro files
  induction files with
  | nil => intro fs h; exact fun x hx => hx
  | cons f rest ih =>
    intro fs h
    have h1 := batchStep_snd_subset sec f fs (h f (List.mem_cons_self _ _))
    have h2 := ih (batchStep true sec f fs).2
      (fun g hg => h g (List.mem_cons_of_mem _ hg))
    exact fun x hx => h1 (h2 hx)

/-- Claim C7 as amended: in the single-submission path the staged image file
is deleted on every exit path (the call never leaves behind a file that was
not already staged); in the batch path the staged file is deleted after a
recognition that returns, but when recognition raises the item's staged file
is not deleted. -/
theorem claim_C7_amended :
    (∀ (loaded : Bool) (sec : String → String) (req : ReqBody) (fs : List String),
      (process_omr loaded sec req fs).2 ⊆ fs) ∧
    (∀ (sec : String → String) (files : List Submission) (fs : List String),
      (∀ f ∈ files, noRaiseSub f = true) →
      (batch_process true sec files fs).2 ⊆ fs) := by
  constructor
  · exact process_omr_snd_subset
  · intro sec files fs h
    cases files with
    | nil => exact fun x hx => hx
    | cons f rest =>
      show (batchLoop true sec (f :: rest) fs).2 ⊆ fs
      exact batchLoop_snd_subset sec (f :: rest) fs h

/-- Witness for C7 as amended, at a concrete request and one-item batch. -/
theorem claim_C7_witness :
    (process_omr true id (ReqBody.fileUpload "a.png" (RecogOutcome.ok [] none))
      []).2 ⊆ [] ∧
    (batch_process true id [⟨"a.png", RecogOutcome.ok [] none⟩] []).2 ⊆ [] :=
  ⟨claim_C7_amended.1 true id (ReqBody.fileUpload "a.png" (RecogOutcome.ok [] none)) [],
    claim_C7_amended.2 id [⟨"a.png", RecogOutcome.ok [] none⟩] [] (by decide)⟩

/-- Counterexample to C7 as stated: in a batch whose single admissible item
raises during recognition, the staged file `api_uploads/boom.png` is still
present when `batch_process` returns — the batch except-handler performs no
staging cleanup. -/
theorem claim_C7_counterexample :
    "api_uploads/boom.png" ∈ (batch_process true id
      [⟨"boom.png", RecogOutcome.raise "recognition failed"⟩] []).2 ∧
    (batch_process true id
      [⟨"boom.png", RecogOutcome.raise "recognition failed"⟩] []).2 ≠ [] := by
  decide

theorem batchEntryOf_false_status (sec : String → String) (f : Submission) :
    (batchEntryOf false sec f).status = "error" := by
  rcases f with ⟨name, outcome⟩
  unfold batchEntryOf
  by_cases hadm : (name == "" || !allowed_file name) = true
  · simp [hadm]
  · simp [hadm]

/-- Claim C8 as amended: when the recognizer is unavailable, the
single-submission path returns the fixed model-not-loaded condition with no
staging work; the batch path performs no availability check — it attempts
each item and reports a per-item error entry for every submission (the
`AttributeError` of calling into the absent processor), indistinguishable in
shape from a per-item recognition failure. -/
theorem claim_C8_amended :
    (∀ (sec : String → String) (req : ReqBody) (fs : List String),
      process_omr false sec req fs = (SingleResp.modelNotLoaded, fs)) ∧
    (∀ (sec : String → String) (files : List Submission) (fs : List String),
      files ≠ [] →
      ∃ report : BatchReport,
        (batch_process false sec files fs).1 = Except.ok report ∧
        report.processed = 0 ∧
        ∀ r ∈ report.results, r.status = "error") := by
  constructor
  · intro sec req fs
    rfl
  · intro sec files fs hne
    have hne2 : files.isEmpty = false := by
      cases files
      · exact absurd rfl hne
      · rfl
    have hall : ∀ r ∈ files.map (batchEntryOf false sec), r.status = "error" := by
      intro r hr
      rcases List.mem_map.mp hr with ⟨f, hf, rfl⟩
      exact batchEntryOf_false_status sec f
    refine ⟨_, batch_process_ok false sec files fs hne2, ?_, hall⟩
    have hfil : (files.map (batchEntryOf false sec)).filter
        (fun r => r.status == "success") = [] := by
      rw [List.filter_eq_nil_iff]
      intro r hr
      rw [hall r hr]
      decide
    show ((files.map (batchEntryOf false sec)).filter
      (fun r => r.status == "success")).length = 0
    rw [hfil]
    rfl

/-- Witness for C8 as amended, at a concrete request and one-item batch. -/
theorem claim_C8_witness :
    process_omr false id ReqBody.noImage [] = (SingleResp.modelNotLoaded, []) ∧
    (∃ report : BatchReport,
      (batch_process false id [⟨"a.png", RecogOutcome.ok [] none⟩] []).1
        = Except.ok report ∧
      report.processed = 0 ∧
      ∀ r ∈ report.results, r.status = "error") :=
  ⟨claim_C8_amended.1 id ReqBody.noImage [],
    claim_C8_amended.2 id [⟨"a.png", RecogOutcome.ok [] none⟩] [] (by decide)⟩

/-- Counterexample to C8 as stated: with the recognizer unavailable, a batch
with one valid submission does not return the fixed model-not-loaded
condition — it returns an ordinary report identical to the one produced by an
available recognizer whose call raises the same message, and it stages the
file (recognition work is attempted), leaking it. -/
theorem claim_C8_counterexample :
    (batch_process false id [⟨"a.png", RecogOutcome.ok [] none⟩] []).1 =
      (batch_process true id [⟨"a.png", RecogOutcome.raise attributeErrorMsg⟩] []).1 ∧
    (batch_process false id [⟨"a.png", RecogOutcome.ok [] none⟩] []).2 =
      ["api_uploads/a.png"] :=
  ⟨rfl, rfl⟩

/-- Claim C10: the grade reported by the scoring engine is computed from the
exact unrounded value correct / total * 100 rather than from the rounded
percentage field, and consequently the concrete pair with 89996 correct
answers out of 100000 key entries is reported with percentage exactly 90
together with grade A, the grade of the band below the 90 threshold. -/
theorem claim_C10 :
    (∀ (α β : Type) (_i1 : BEq α) (_i2 : BEq β) (detected answer_key : List (α × β)),
      (validate_answers detected answer_key).grade =
        get_grade (if 0 < answer_key.length then
          ((validate_answers detected answer_key).score : ℚ) /
            (answer_key.length : ℚ) * 100 else 0)) ∧
    ((validate_answers
        ((List.range 100000).map (fun i => (i, if i < 89996 then "A" else "B")))
        ((List.range 100000).map (fun i => (i, "A")))).percentage = 90 ∧
      (validate_answers
        ((List.range 100000).map (fun i => (i, if i < 89996 then "A" else "B")))
        ((List.range 100000).map (fun i => (i, "A")))).grade = "A" ∧
      get_grade 90 = "A+") := by
  have hlen : ((List.range 100000).map
      (fun i : ℕ => (i, "A"))).length = 100000 := by
    rw [List.length_map, List.length_range]
  have hcast : ((89996 : ℕ) : ℚ) / ((100000 : ℕ) : ℚ) * 100 =
      (89996 : ℚ) / 100000 * 100 := by norm_num
  refine ⟨fun _ _ _ _ _ _ => validate_grade_def _ _, ?_, ?_, by norm_num [get_grade]⟩
  · rw [validate_percentage_def, hlen, bigKey_score, if_pos (by norm_num), hcast,
      pyRound2_at_89996]
  · rw [validate_grade_def, hlen, bigKey_score, if_pos (by norm_num), hcast]
    unfold get_grade
    norm_num

theorem SEP_spelling : SEP = "base64,".toList := by decide

theorem sep_isPrefixOf_eq_false {s : List Char} (h : ',' ∉ s.take 7) :
    SEP.isPrefixOf s = false := by
  cases hpre : SEP.isPrefixOf s
  · rfl
  · exfalso
    have hp : SEP <+: s := List.isPrefixOf_iff_prefix.mp hpre
    have heq : SEP = s.take 7 := List.prefix_iff_eq_take.mp hp
    apply h
    rw [← heq]
    decide

theorem comma_notin_sep_take {n : ℕ} (hn : n ≤ 6) : ',' ∉ SEP.take n := by
  interval_cases n <;> decide

theorem comma_notin_take_six (p1 payload : List Char) (hp1 : ',' ∉ p1) :
    ',' ∉ (p1 ++ SEP ++ payload).take 6 := by
  intro hmem
  rw [List.append_assoc, List.take_append_eq_append_take] at hmem
  rcases List.mem_append.mp hmem with h1 | h2
  · exact hp1 (List.take_subset _ _ h1)
  · have h3 : (SEP ++ payload).take (6 - p1.length) = SEP.take (6 - p1.length) :=
      List.take_append_of_le_length (by show 6 - p1.length ≤ SEP.length; simp [SEP]; omega)
    rw [h3] at h2
    exact comma_notin_sep_take (Nat.sub_le 6 _) h2

theorem containsSeq_no_marker (s : List Char) (h : ',' ∉ s) :
    containsSeq SEP s = false := by
  induction s with
  | nil => rfl
  | cons c rest ih =>
    have hpre : SEP.isPrefixOf (c :: rest) = false := sep_isPrefixOf_eq_false
      (fun hmem => h (List.take_subset _ _ hmem))
    simp only [containsSeq, hpre, Bool.false_or]
    exact ih (fun hm => h (List.mem_cons_of_mem _ hm))

theorem takeUntilFirst_no_marker (s : List Char) (h : ',' ∉ s) :
    takeUntilFirst SEP s = s := by
  induction s with
  | nil => rfl
  | cons c rest ih =>
    have hrest : ',' ∉ rest := fun hm => h (List.mem_cons_of_mem _ hm)
    have hpre : SEP.isPrefixOf (c :: rest) = false := sep_isPrefixOf_eq_false
      (fun hmem => h (List.take_subset _ _ hmem))
    simp only [takeUntilFirst, hpre, Bool.false_eq_true, if_false]
    rw [ih hrest]

theorem containsSeq_marker (payload : List Char) :
    ∀ p : List Char, containsSeq SEP (p ++ SEP ++ payload) = true := by
  intro p
  induction p with
  | nil =>
    show containsSeq SEP ('b' :: (['a', 's', 'e', '6', '4', ','] ++ payload)) = true
    have hpre : SEP.isPrefixOf ('b' :: (['a', 's', 'e', '6', '4', ','] ++ payload))
        = true := List.isPrefixOf_iff_prefix.mpr (List.prefix_append SEP payload)
    simp only [containsSeq, hpre, Bool.true_or]
  | cons c p1 ih =>
    show containsSeq SEP (c :: (p1 ++ SEP ++ payload)) = true
    simp only [containsSeq]
    rw [ih]
    simp

theorem dropThroughFirst_marker (payload : List Char) :
    ∀ p : List Char, ',' ∉ p →
      dropThroughFirst SEP (p ++ SEP ++ payload) = payload := by
  intro p
  induction p with
  | nil =>
    intro _
    show dropThroughFirst SEP ('b' :: (['a', 's', 'e', '6', '4', ','] ++ payload))
      = payload
    have hpre : SEP.isPrefixOf ('b' :: (['a', 's', 'e', '6', '4', ','] ++ payload))
        = true := List.isPrefixOf_iff_prefix.mpr (List.prefix_append SEP payload)
    simp only [dropThroughFirst, hpre, if_true]
    exact List.drop_left SEP payload
  | cons c p1 ih =>
    intro hp
    have hc : c ≠ ',' := fun he => hp (he ▸ List.mem_cons_self _ _)
    have hp1 : ',' ∉ p1 := fun hm => hp (List.mem_cons_of_mem _ hm)
    show dropThroughFirst SEP (c :: (p1 ++ SEP ++ payload)) = payload
    have hpre : SEP.isPrefixOf (c :: (p1 ++ SEP ++ payload)) = false := by
      apply sep_isPrefixOf_eq_false
      intro hmem
      rw [show (7 : ℕ) = 6 + 1 from rfl, List.take_succ_cons] at hmem
      rcases List.mem_cons.mp hmem with heq | h2
      · exact hc heq.symm
      · exact comma_notin_take_six p1 payload hp1 h2
    simp only [dropThroughFirst, hpre, Bool.false_eq_true, if_false]
    exact ih hp1

/-- Claim C9: for every base64 payload (base64 text cannot contain a comma)
that decodes on its own to a valid image, normalizing the payload carrying a
data-URL prefix that ends in the marker `base64,` (with no comma earlier in
the prefix, as in `data:image/png;base64,`) yields the same canonical image
as normalizing the bare payload. -/
theorem claim_C9 {Img : Type} (b64decode : List Char → Option (List ℕ))
    (imageOpen : List ℕ → Option Img) (p payload : List Char)
    (hp : ',' ∉ p) (hpay : ',' ∉ payload)
    (_hvalid : ∃ bytes img, b64decode payload = some bytes ∧
      imageOpen bytes = some img) :
    decode_base64_image b64decode imageOpen (p ++ SEP ++ payload) =
      decode_base64_image b64decode imageOpen payload := by
  unfold decode_base64_image
  rw [containsSeq_marker payload p, containsSeq_no_marker payload hpay,
    dropThroughFirst_marker payload p hp, takeUntilFirst_no_marker payload hpay]
  rfl

/-- Witness for C9 with a concrete prefix, payload and abstract decoders. -/
theorem claim_C9_witness :
    (',' ∉ "data:image/png;".toList) ∧ (',' ∉ "QUJD".toList) ∧
    decode_base64_image (fun _ => some [0]) (fun _ => some (0 : ℕ))
        ("data:image/png;".toList ++ SEP ++ "QUJD".toList) =
      decode_base64_image (fun _ => some [0]) (fun _ => some (0 : ℕ))
        "QUJD".toList :=
  ⟨by decide, by decide,
    claim_C9 (fun _ => some [0]) (fun _ => some (0 : ℕ)) "data:image/png;".toList
      "QUJD".toList (by decide) (by decide) ⟨[0], 0, rfl, rfl⟩⟩
